import Mathlib

/-!
Verification of the tiled matrix-multiplication step simulator
(`TiledMatmulGeminiDemo` and its helper functions in
`src/components/post/Im2ColGeminiDemo.tsx`).

The TypeScript source is shallowly embedded: JavaScript numbers that are
always used as integers become `Int` (or `Nat` where the source value is
a count), `null`-able matrix cells become `Option Int`, the mutable
`out` array of `buildPartialC` becomes explicit functional update
(`setCell`), and each `for` loop becomes a `List.foldl` over the exact
index list the loop visits.
-/

namespace TiledMatmul

/-- `const TILE_SIZE = 4;` -/
def TILE_SIZE : Nat := 4

/-- `const M = 7;` (rows of A, rows of C) -/
def M : Nat := 7

/-- `const N = 6;` (cols of A, rows of B: the shared inner dimension) -/
def N : Nat := 6

/-- `const K = 9;` (cols of B, cols of C) -/
def K : Nat := 9

/-- `const ROW_TILES = Math.ceil(M / TILE_SIZE);` — for positive integers,
`Math.ceil(a / b) = (a + b - 1) / b` in integer division. -/
def ROW_TILES : Nat := (M + TILE_SIZE - 1) / TILE_SIZE

/-- `const INNER_TILES = Math.ceil(N / TILE_SIZE);` -/
def INNER_TILES : Nat := (N + TILE_SIZE - 1) / TILE_SIZE

/-- `const COL_TILES = Math.ceil(K / TILE_SIZE);` -/
def COL_TILES : Nat := (K + TILE_SIZE - 1) / TILE_SIZE

/-- `const TOTAL_STEPS = ROW_TILES * COL_TILES * INNER_TILES;` -/
def TOTAL_STEPS : Nat := ROW_TILES * COL_TILES * INNER_TILES

/-- `function getTileRange(tileIndex, maxSize)`: returns the pair
`[tileIndex * TILE_SIZE, min(tileIndex * TILE_SIZE + TILE_SIZE - 1, maxSize - 1)]`.
The source performs no input validation and cannot throw. -/
def getTileRange (tileIndex : Int) (maxSize : Int) : Int × Int :=
  let start := tileIndex * (TILE_SIZE : Int)
  (start, min (start + (TILE_SIZE : Int) - 1) (maxSize - 1))

/-- `function tileContributionCount(step, rowTile, colTile)`: the number of
inner-tile contributions folded into output tile `(rowTile, colTile)` as of
global step `step`. A pure function, exactly as in the source. -/
def tileContributionCount (step rowTile colTile : Int) : Int :=
  let tileIndex := rowTile * (COL_TILES : Int) + colTile
  let baseStep := tileIndex * (INNER_TILES : Int)
  let delta := step - baseStep + 1
  if delta ≤ 0 then 0 else min (INNER_TILES : Int) delta

/-- The step decoding used in `TiledMatmulGeminiDemo`:
`inner = step % INNER_TILES; col = floor(step / INNER_TILES) % COL_TILES;`
`row = floor(step / (INNER_TILES * COL_TILES))`.
Returned as `(rowTile, colTile, innerTile)`. -/
def decodeStep (step : Nat) : Nat × Nat × Nat :=
  (step / (INNER_TILES * COL_TILES), step / INNER_TILES % COL_TILES,
    step % INNER_TILES)

/-- The row-major (row tile, then column tile, then inner tile — inner
fastest) linearization of a tile triple; stating that this is a two-sided
inverse of `decodeStep` is the bijection property of the spec. -/
def encodeTriple (rowTile colTile innerTile : Nat) : Nat :=
  (rowTile * COL_TILES + colTile) * INNER_TILES + innerTile

/-- Modelled from the spec (§4.1): the spec's contract for
`tileRange(tileIndex, dimExtent, tileSize)` says it FAILS with an
`InvalidArgument` error when `tileIndex < 0` or
`tileIndex * tileSize ≥ dimExtent`, and otherwise returns the inclusive
range. The source `getTileRange` has no such failure path; this definition
renders the spec's words so the two can be compared. -/
def getTileRangeSpec (tileIndex dimExtent tileSize : Int) : Option (Int × Int) :=
  if tileIndex < 0 ∨ dimExtent ≤ tileIndex * tileSize then none
  else some (tileIndex * tileSize, min (tileIndex * tileSize + tileSize - 1) (dimExtent - 1))

/-- The index list visited by a JavaScript loop
`for (let x = lo; x <= hi; x += 1)` — empty when `hi < lo`. -/
def intRangeIncl (lo hi : Int) : List Int :=
  (List.range (hi + 1 - lo).toNat).map (fun k => lo + (k : Int))

/-- The index list visited by `for (let x = 0; x < count; x += 1)` where
`count` is an integer (empty when `count ≤ 0`). -/
def intRangeLt (count : Int) : List Int :=
  (List.range count.toNat).map (fun k => (k : Int))

/-- Functional rendering of the array write `out[r][c] = v` on a
`null`-initialized `M × K` matrix represented as a cell function. -/
def setCell (out : Nat → Nat → Option Int) (i j : Nat) (v : Int) :
    Nat → Nat → Option Int :=
  fun r c => if r = i ∧ c = j then some v else out r c

/-- `function buildPartialC(matrixA, matrixB, step)`: the partially
accumulated output matrix as of `step`. Each nested `for` loop of the
source becomes a `foldl` over exactly the indices that loop visits; the
mutable `out` array (initialized to all `null`) is threaded through the
folds and written with `setCell`. Input matrices are cell functions
(`A r n`, `B n c`); only indices inside `M × N` and `N × K` are read. -/
def buildPartialC (matrixA matrixB : Nat → Nat → Int) (step : Int) :
    Nat → Nat → Option Int :=
  let init : Nat → Nat → Option Int := fun _ _ => none
  (intRangeLt (ROW_TILES : Int)).foldl (fun out rowTile =>
    let rowRange := getTileRange rowTile (M : Int)
    (intRangeLt (COL_TILES : Int)).foldl (fun out colTile =>
      let colRange := getTileRange colTile (K : Int)
      let contributions := tileContributionCount step rowTile colTile
      if contributions ≤ 0 then out
      else
        (intRangeIncl rowRange.1 rowRange.2).foldl (fun out r =>
          (intRangeIncl colRange.1 colRange.2).foldl (fun out c =>
            let sum := (intRangeLt contributions).foldl (fun s innerTile =>
              let innerRange := getTileRange innerTile (N : Int)
              (intRangeIncl innerRange.1 innerRange.2).foldl (fun s n =>
                s + matrixA r.toNat n.toNat * matrixB n.toNat c.toNat) s) 0
            setCell out r.toNat c.toNat sum) out) out) out) init

/-- The conventional (untiled) matrix product: entry `(r, c)` is the sum
over `n` in `[0, N)` of `A[r][n] * B[n][c]`, accumulated in ascending
order of `n`. -/
def directProduct (matrixA matrixB : Nat → Nat → Int) (r c : Nat) : Int :=
  (List.range N).foldl (fun s n => s + matrixA r n * matrixB n c) 0

/-- The reactive state owned by `TiledMatmulGeminiDemo`:
`const [step, setStep] = useState(0); const [isPlaying, setIsPlaying] = useState(false);` -/
structure ControllerState where
  step : Int
  isPlaying : Bool
deriving DecidableEq, Repr

/-- `nextStep`: `setIsPlaying(false); setStep(prev => (prev + 1) % TOTAL_STEPS)`. -/
def nextStep (st : ControllerState) : ControllerState :=
  { step := (st.step + 1) % (TOTAL_STEPS : Int), isPlaying := false }

/-- `prevStep`: `setIsPlaying(false); setStep(prev => (prev - 1 + TOTAL_STEPS) % TOTAL_STEPS)`. -/
def prevStep (st : ControllerState) : ControllerState :=
  { step := (st.step - 1 + (TOTAL_STEPS : Int)) % (TOTAL_STEPS : Int), isPlaying := false }

/-- `reset`: `setIsPlaying(false); setStep(0)`. -/
def reset (_st : ControllerState) : ControllerState :=
  { step := 0, isPlaying := false }

/-- `togglePlay`: `setIsPlaying(prev => !prev)` (the Play/Pause button). -/
def togglePlay (st : ControllerState) : ControllerState :=
  { st with isPlaying := !st.isPlaying }

/-- The step slider's `onChange` handler in `TiledMatmulGeminiDemo`:
`setIsPlaying(false); setStep(Number(event.currentTarget.value))` — the
stored step is the raw value, with no clamping in the handler itself. -/
def sliderOnChange (_st : ControllerState) (value : Int) : ControllerState :=
  { step := value, isPlaying := false }

/-- One autoplay interval tick: the `useEffect` installs
`setStep(prev => (prev + 1) % TOTAL_STEPS)` on a timer only while
`isPlaying` is true, and clears the timer otherwise, so a tick advances
the step exactly when `isPlaying` holds. -/
def autoplayTick (st : ControllerState) : ControllerState :=
  if st.isPlaying then { st with step := (st.step + 1) % (TOTAL_STEPS : Int) }
  else st

/-! Helper lemmas shared by several claim theorems. -/

/-- Shared helper: at step 11 (the final step of the fixed configuration)
every cell of the materialized output equals the corresponding entry of
the untiled product. Proved by exhausting the 7 × 9 output positions;
each case reduces by computation to a syntactic identity between the
tiled accumulation order and the direct accumulation order. -/
theorem buildPartialC_step11 (matrixA matrixB : Nat → Nat → Int) :
    ∀ r, r < M → ∀ c, c < K →
      buildPartialC matrixA matrixB 11 r c =
        some (directProduct matrixA matrixB r c) := by
  intro r hr c hc
  simp only [M] at hr
  simp only [K] at hc
  interval_cases r <;> interval_cases c <;> rfl

/-- Shared helper: `directProduct` is the sum over `n < N` of
`A[r][n] * B[n][c]`, in `Finset.sum` form. -/
theorem directProduct_eq_finset_sum (matrixA matrixB : Nat → Nat → Int) (r c : Nat) :
    directProduct matrixA matrixB r c =
      ∑ n in Finset.range N, matrixA r n * matrixB n c := by
  have h : List.range N = [0, 1, 2, 3, 4, 5] := rfl
  simp only [directProduct, h, List.foldl_cons, List.foldl_nil]
  have hN : N = 6 := rfl
  simp [hN, Finset.sum_range_succ]

/-! Claim theorems. -/

/-- C1: for the fixed configuration `M=7, N=6, K=9, tileSize=4` and any
integer input matrices, materializing the partial output at
`step = TOTAL_STEPS - 1` yields, at every output position, exactly the
conventional (untiled) matrix product entry — defined (`some`) and equal
to the sum over `n ∈ [0, N)` of `A[r][n] * B[n][c]`. -/
theorem claim_C1_final_step_correct (matrixA matrixB : Nat → Nat → Int)
    (r c : Nat) (hr : r < M) (hc : c < K) :
    buildPartialC matrixA matrixB ((TOTAL_STEPS : Int) - 1) r c =
      some (directProduct matrixA matrixB r c) :=
  buildPartialC_step11 matrixA matrixB r hr c hc

/-- Witness for C1 at concrete matrices and the output position (0, 0). -/
theorem claim_C1_witness :
    buildPartialC (fun r n => (r : Int) + n) (fun n c => (n : Int) * c + 1)
        ((TOTAL_STEPS : Int) - 1) 0 0 =
      some (directProduct (fun r n => (r : Int) + n) (fun n c => (n : Int) * c + 1) 0 0) :=
  claim_C1_final_step_correct (fun r n => (r : Int) + n)
    (fun n c => (n : Int) * c + 1) 0 0 (by decide) (by decide)

/-- C2: the step decoding is a bijection from `[0, TOTAL_STEPS)` onto
`rowTiles × colTiles × innerTiles`, with the inner tile varying fastest,
then the column tile, then the row tile: `encodeTriple` (the row-major,
inner-fastest linearization `(r * COL_TILES + c) * INNER_TILES + i`) is a
two-sided inverse of `decodeStep` between the two finite domains, so
every triple is produced exactly once. -/
theorem claim_C2_decode_bijection :
    (∀ s, s < TOTAL_STEPS →
      encodeTriple (decodeStep s).1 (decodeStep s).2.1 (decodeStep s).2.2 = s) ∧
    (∀ r, r < ROW_TILES → ∀ c, c < COL_TILES → ∀ i, i < INNER_TILES →
      encodeTriple r c i < TOTAL_STEPS ∧
      decodeStep (encodeTriple r c i) = (r, c, i)) := by
  decide

/-- Witness for C2 at step 7 and at the triple (1, 2, 1). -/
theorem claim_C2_witness :
    encodeTriple (decodeStep 7).1 (decodeStep 7).2.1 (decodeStep 7).2.2 = 7 ∧
    decodeStep (encodeTriple 1 2 1) = (1, 2, 1) :=
  ⟨claim_C2_decode_bijection.1 7 (by decide),
    (claim_C2_decode_bijection.2 1 (by decide) 2 (by decide) 1 (by decide)).2⟩

/-- C3: the per-tile progress counter equals
`clamp(s - (rt*colTiles + ct)*innerTiles + 1, 0, innerTiles)`, i.e.
`max 0 (min innerTiles ...)` — proved for ALL integer arguments, which
covers the claim's `s ≥ 0` and in-range tile coordinates; and it is by
construction a pure function of `(s, rt, ct)` with no stored state. -/
theorem claim_C3_progress_clamp (s rowTile colTile : Int) :
    tileContributionCount s rowTile colTile =
      max 0 (min (INNER_TILES : Int)
        (s - (rowTile * (COL_TILES : Int) + colTile) * (INNER_TILES : Int) + 1)) := by
  have hI : (INNER_TILES : Int) = 2 := rfl
  have hC : (COL_TILES : Int) = 3 := rfl
  simp only [tileContributionCount, hI, hC]
  split_ifs with h <;> omega

/-- C4: for any fixed output tile, the progress counter is monotonically
non-decreasing in the step, is 0 at every step strictly before the tile's
first contribution step `(rt*COL_TILES + ct)*INNER_TILES`, and once it
equals `INNER_TILES` it stays there for every later step. Proved for all
integer steps, which covers the claim's range `[0, TOTAL_STEPS)`. -/
theorem claim_C4_progress_monotone (rowTile colTile : Int) :
    (∀ s s' : Int, s ≤ s' →
      tileContributionCount s rowTile colTile ≤
        tileContributionCount s' rowTile colTile) ∧
    (∀ s : Int, s < (rowTile * (COL_TILES : Int) + colTile) * (INNER_TILES : Int) →
      tileContributionCount s rowTile colTile = 0) ∧
    (∀ s s' : Int, tileContributionCount s rowTile colTile = (INNER_TILES : Int) →
      s ≤ s' → tileContributionCount s' rowTile colTile = (INNER_TILES : Int)) := by
  have hI : (INNER_TILES : Int) = 2 := rfl
  have hC : (COL_TILES : Int) = 3 := rfl
  refine ⟨fun s s' hss => ?_, fun s hs => ?_, fun s s' hfull hss => ?_⟩ <;>
    simp only [tileContributionCount, hI, hC] at * <;>
    split_ifs at * <;> omega

/-- Witness for C4 at tile (1, 0), steps 5 ≤ 7, a pre-start step 3, and
the saturation step pair 7 ≤ 11. -/
theorem claim_C4_witness :
    tileContributionCount 5 1 0 ≤ tileContributionCount 7 1 0 ∧
    tileContributionCount 3 1 0 = 0 ∧
    tileContributionCount 11 1 0 = (INNER_TILES : Int) :=
  ⟨(claim_C4_progress_monotone 1 0).1 5 7 (by decide),
    (claim_C4_progress_monotone 1 0).2.1 3 (by decide),
    (claim_C4_progress_monotone 1 0).2.2 7 11 (by decide) (by decide)⟩

/-- Counterexample to C5 as stated: the claim says `getTileRange` fails
with an `InvalidArgument` error when `tileIndex < 0` (rendered by
`getTileRangeSpec`, which follows the spec's words and returns `none`
there), but the source `getTileRange` has no failure path: at
`tileIndex = -1, maxSize = 7` it returns the plain pair `(-4, -1)`. -/
theorem claim_C5_counterexample :
    getTileRangeSpec (-1) 7 (TILE_SIZE : Int) = none ∧
    getTileRange (-1) 7 = (-4, -1) := by
  decide

/-- C5 amended: `getTileRange` never fails (it performs no validation);
for every VALID `tileIndex` (`0 ≤ tileIndex` and
`tileIndex * tileSize < maxSize`) it returns the inclusive range
`[tileIndex*tileSize, min(tileIndex*tileSize + tileSize - 1, maxSize-1)]`,
whose end is `< maxSize` and which is nonempty; in particular for
`maxSize = 7, tileSize = 4`: tile 0 yields `[0, 3]` and tile 1 yields
`[4, 6]` (a narrower final tile). -/
theorem claim_C5_tile_range_contract :
    (∀ tileIndex maxSize : Int,
      0 ≤ tileIndex → tileIndex * (TILE_SIZE : Int) < maxSize →
      getTileRange tileIndex maxSize =
        (tileIndex * (TILE_SIZE : Int),
          min (tileIndex * (TILE_SIZE : Int) + (TILE_SIZE : Int) - 1) (maxSize - 1)) ∧
      (getTileRange tileIndex maxSize).2 < maxSize ∧
      (getTileRange tileIndex maxSize).1 ≤ (getTileRange tileIndex maxSize).2) ∧
    getTileRange 0 7 = (0, 3) ∧ getTileRange 1 7 = (4, 6) := by
  have hT : (TILE_SIZE : Int) = 4 := rfl
  refine ⟨fun tileIndex maxSize h0 hlt => ⟨rfl, ?_, ?_⟩, by decide, by decide⟩ <;>
    · simp only [getTileRange, hT] at *
      omega

/-- Witness for C5 (amended) at `tileIndex = 1, maxSize = 7`. -/
theorem claim_C5_witness :
    getTileRange 1 7 =
      (1 * (TILE_SIZE : Int),
        min (1 * (TILE_SIZE : Int) + (TILE_SIZE : Int) - 1) (7 - 1)) ∧
    (getTileRange 1 7).2 < 7 :=
  ⟨(claim_C5_tile_range_contract.1 1 7 (by decide) (by decide)).1,
    (claim_C5_tile_range_contract.1 1 7 (by decide) (by decide)).2.1⟩

/-- Counterexample to C6 as stated: the tiled simulator's slider change
handler does NOT clamp its argument — seeking to `TOTAL_STEPS` (= 12)
stores step 12, not `max 0 (min (TOTAL_STEPS - 1) 12) = 11`. -/
theorem claim_C6_counterexample :
    ¬ ((sliderOnChange ⟨0, false⟩ (TOTAL_STEPS : Int)).step =
        max 0 (min ((TOTAL_STEPS : Int) - 1) (TOTAL_STEPS : Int))) := by
  decide

/-- C6 amended: the tiled simulator's slider change handler stores its
integer argument unchanged (no clamping in the handler — range limiting
comes only from the slider element's `min`/`max` attributes), always
turns autoplay off, and never errors; for arguments already inside
`[0, TOTAL_STEPS)` the stored step agrees with the claim's clamp
`max 0 (min (TOTAL_STEPS - 1) v)`. -/
theorem claim_C6_slider_no_clamp (st : ControllerState) (v : Int) :
    (sliderOnChange st v).step = v ∧
    (sliderOnChange st v).isPlaying = false ∧
    (0 ≤ v → v < (TOTAL_STEPS : Int) →
      (sliderOnChange st v).step = max 0 (min ((TOTAL_STEPS : Int) - 1) v)) := by
  refine ⟨rfl, rfl, fun h0 hlt => ?_⟩
  have hT : (TOTAL_STEPS : Int) = 12 := rfl
  simp only [sliderOnChange, hT] at *
  omega

/-- Witness for C6 (amended) at state (step 3, playing) and value 5. -/
theorem claim_C6_witness :
    (sliderOnChange ⟨3, true⟩ 5).step = max 0 (min ((TOTAL_STEPS : Int) - 1) 5) :=
  (claim_C6_slider_no_clamp ⟨3, true⟩ 5).2.2 (by decide) (by decide)

/-- C7: the derived constants of the fixed configuration are
`ROW_TILES = 2, INNER_TILES = 2, COL_TILES = 3, TOTAL_STEPS = 12`;
decoding step 0 gives the triple `(0, 0, 0)` and decoding step 11 gives
`(1, 2, 1)`; and the output materialized at step 11 equals the full
untiled product at every output position, for any input matrices. -/
theorem claim_C7_example_end_to_end :
    ROW_TILES = 2 ∧ INNER_TILES = 2 ∧ COL_TILES = 3 ∧ TOTAL_STEPS = 12 ∧
    decodeStep 0 = (0, 0, 0) ∧ decodeStep 11 = (1, 2, 1) ∧
    (∀ matrixA matrixB : Nat → Nat → Int, ∀ r, r < M → ∀ c, c < K →
      buildPartialC matrixA matrixB 11 r c =
        some (directProduct matrixA matrixB r c)) :=
  ⟨rfl, rfl, rfl, rfl, rfl, rfl, fun matrixA matrixB => buildPartialC_step11 matrixA matrixB⟩

/-- Witness for C7 at concrete matrices and the output position (6, 8). -/
theorem claim_C7_witness :
    buildPartialC (fun r n => (r : Int) * 2 + n) (fun n c => (n : Int) + c) 11 6 8 =
      some (directProduct (fun r n => (r : Int) * 2 + n) (fun n c => (n : Int) + c) 6 8) :=
  claim_C7_example_end_to_end.2.2.2.2.2.2
    (fun r n => (r : Int) * 2 + n) (fun n c => (n : Int) + c) 6 (by decide) 8 (by decide)

/-- C8: `nextStep` and `prevStep` wrap modulo `TOTAL_STEPS`: from any
in-range step `s`, the next step is `(s + 1) % TOTAL_STEPS` and the
previous step is `(s - 1 + TOTAL_STEPS) % TOTAL_STEPS`, both again in
range; in particular next from 11 yields 0 and previous from 0 yields 11
(for either autoplay flag value). -/
theorem claim_C8_wraparound :
    (∀ st : ControllerState, 0 ≤ st.step → st.step < (TOTAL_STEPS : Int) →
      (nextStep st).step = (st.step + 1) % (TOTAL_STEPS : Int) ∧
      (prevStep st).step = (st.step - 1 + (TOTAL_STEPS : Int)) % (TOTAL_STEPS : Int) ∧
      0 ≤ (nextStep st).step ∧ (nextStep st).step < (TOTAL_STEPS : Int) ∧
      0 ≤ (prevStep st).step ∧ (prevStep st).step < (TOTAL_STEPS : Int)) ∧
    (∀ b : Bool, (nextStep ⟨11, b⟩).step = 0 ∧ (prevStep ⟨0, b⟩).step = 11) := by
  have hT : (TOTAL_STEPS : Int) = 12 := rfl
  refine ⟨fun st h0 hlt => ⟨rfl, rfl, ?_, ?_, ?_, ?_⟩, fun b => ⟨rfl, rfl⟩⟩ <;>
    · dsimp only [nextStep, prevStep]
      rw [hT] at hlt ⊢
      omega

/-- Witness for C8 at the state (step 11, not playing). -/
theorem claim_C8_witness :
    (nextStep ⟨11, false⟩).step = (11 + 1) % (TOTAL_STEPS : Int) ∧
    (prevStep ⟨11, false⟩).step = (11 - 1 + (TOTAL_STEPS : Int)) % (TOTAL_STEPS : Int) :=
  ⟨(claim_C8_wraparound.1 ⟨11, false⟩ (by decide) (by decide)).1,
    (claim_C8_wraparound.1 ⟨11, false⟩ (by decide) (by decide)).2.1⟩

/-- C9: from any state with the autoplay flag on, seeking via the slider
handler turns autoplay off and stores exactly the sought value, and an
autoplay timer tick after the seek changes nothing (no further automatic
advancement until play is toggled on again). -/
theorem claim_C9_seek_cancels_autoplay (st : ControllerState) (v : Int)
    (_hplay : st.isPlaying = true) :
    (sliderOnChange st v).isPlaying = false ∧
    (sliderOnChange st v).step = v ∧
    autoplayTick (sliderOnChange st v) = sliderOnChange st v := by
  exact ⟨rfl, rfl, rfl⟩

/-- Witness for C9 at the playing state (step 4, playing) and value 9. -/
theorem claim_C9_witness :
    (sliderOnChange ⟨4, true⟩ 9).isPlaying = false ∧
    (sliderOnChange ⟨4, true⟩ 9).step = 9 ∧
    autoplayTick (sliderOnChange ⟨4, true⟩ 9) = sliderOnChange ⟨4, true⟩ 9 :=
  claim_C9_seek_cancels_autoplay ⟨4, true⟩ 9 (by decide)

/-- C10: `getTileRange` is total and performs no input validation: for
EVERY integer `tileIndex` and `maxSize` it returns exactly the pair
`(tileIndex*TILE_SIZE, min (tileIndex*TILE_SIZE + TILE_SIZE - 1) (maxSize - 1))`
and never errors; when `tileIndex * TILE_SIZE ≥ maxSize` the returned
range is empty (`end < start`), and when `tileIndex < 0` the returned
start is negative. -/
theorem claim_C10_tile_range_total (tileIndex maxSize : Int) :
    getTileRange tileIndex maxSize =
      (tileIndex * (TILE_SIZE : Int),
        min (tileIndex * (TILE_SIZE : Int) + (TILE_SIZE : Int) - 1) (maxSize - 1)) ∧
    (maxSize ≤ tileIndex * (TILE_SIZE : Int) →
      (getTileRange tileIndex maxSize).2 < (getTileRange tileIndex maxSize).1) ∧
    (tileIndex < 0 → (getTileRange tileIndex maxSize).1 < 0) := by
  have hT : (TILE_SIZE : Int) = 4 := rfl
  refine ⟨rfl, fun hge => ?_, fun hneg => ?_⟩ <;>
    · simp only [getTileRange, hT] at *
      omega

/-- Witness for C10 at `tileIndex = 2, maxSize = 7` (out of range) and
`tileIndex = -1, maxSize = 7` (negative). -/
theorem claim_C10_witness :
    (getTileRange 2 7).2 < (getTileRange 2 7).1 ∧
    (getTileRange (-1) 7).1 < 0 :=
  ⟨(claim_C10_tile_range_total 2 7).2.1 (by decide),
    (claim_C10_tile_range_total (-1) 7).2.2 (by decide)⟩

end TiledMatmul
